import Mathlib

/-!
Verification development for the `ai_job_candidate_reviewer` repository.

This file gives a shallow embedding, in Lean, of the pieces of the program
that the frozen claims are about:

* `src/policy/filter_enforcer.py` (the Policy Enforcer),
* the post-processing enforcement block of `src/ai_client.py`,
* the identifier extraction / identity matching / directory resolution code
  of `src/file_processor.py`,
* the evaluation deduplication code of `src/output_generator.py`,
* the insight-regeneration trigger of `src/feedback_manager.py`.

Python strings are modelled as `List Char` (wrapped in `String` at the
interfaces), Python `int` as `Int`, Python `set[str]` as `Finset String`,
and Python `datetime` timestamps as `Nat` (only their total order is used).
Fallible operations (`int(...)` conversions, enum construction) are modelled
with `Option` so that every `try/except` fallback of the source is an
explicit branch; the Lean functions are total, which embeds the fact that
the corresponding Python never lets an exception escape.
-/

set_option maxRecDepth 10000

/-! ## Python string primitives (modelled on `List Char`) -/

/-- Characters stripped by Python's `str.strip()` with no argument. -/
def pyIsSpace (c : Char) : Bool :=
  c == ' ' || c == '\t' || c == '\n' || c == '\r' || c == '\x0b' || c == '\x0c'

/-- Python `str.lstrip`-style removal of leading characters matching `p`. -/
def stripLeft (p : Char → Bool) (l : List Char) : List Char := l.dropWhile p

/-- Python `str.rstrip`-style removal of trailing characters matching `p`. -/
def stripRight (p : Char → Bool) (l : List Char) : List Char :=
  (l.reverse.dropWhile p).reverse

/-- Python `str.strip`-style removal at both ends. -/
def pyStrip (p : Char → Bool) (l : List Char) : List Char :=
  stripRight p (stripLeft p l)

/-- The prefix of `l` before the first occurrence of `c`
(Python `s.split(c, 1)[0]`). -/
def takeUntilChar (c : Char) (l : List Char) : List Char := l.takeWhile (· != c)

/-- Python `pat in s` substring containment. -/
def containsSub (pat : List Char) : List Char → Bool
  | [] => pat.isEmpty
  | s@(_ :: rest) => pat.isPrefixOf s || containsSub pat rest

/-- Python `s.split(pat, 1)[-1]`: everything after the first occurrence of
`pat`, or `s` itself when `pat` does not occur. -/
def afterFirstSub (pat : List Char) : List Char → List Char
  | [] => []
  | s@(c :: rest) =>
    if pat.isPrefixOf s then s.drop pat.length else c :: afterFirstSub pat rest

/-- Python `s.split(c)`: split on every occurrence of `c`, keeping empty
pieces. -/
def splitOnChar (c : Char) : List Char → List (List Char)
  | [] => [[]]
  | x :: xs =>
    match splitOnChar c xs with
    | [] => [[]]
    | h :: t => if x == c then [] :: h :: t else (x :: h) :: t

/-- Line-break characters recognised by Python `str.splitlines`. -/
def pyIsLineBreak (c : Char) : Bool :=
  c == '\n' || c == '\r' || c == '\x0b' || c == '\x0c' || c == '\x1c' ||
  c == '\x1d' || c == '\x1e' || c == '\x85' || c == '\u2028' || c == '\u2029'

/-- Worker for `pySplitlines`; `cur` is the reversed current line. -/
def pySplitlinesGo : List Char → List Char → List (List Char)
  | cur, [] => if cur.isEmpty then [] else [cur.reverse]
  | cur, '\r' :: '\n' :: rest => cur.reverse :: pySplitlinesGo [] rest
  | cur, c :: rest =>
    if pyIsLineBreak c then cur.reverse :: pySplitlinesGo [] rest
    else pySplitlinesGo (c :: cur) rest

/-- Python `str.splitlines()`. -/
def pySplitlines (l : List Char) : List (List Char) := pySplitlinesGo [] l

/-- Python `s.startswith(pat)`. -/
def startsWithL (pat s : List Char) : Bool := pat.isPrefixOf s

/-! ## Data model (`src/models.py`) -/

/-- `RecommendationType` enum of `models.py`. -/
inductive RecommendationType where
  | STRONG_YES
  | YES
  | MAYBE
  | NO
  | STRONG_NO
deriving DecidableEq, Repr

/-- The `.value` string of each `RecommendationType` member. -/
def RecommendationType.value : RecommendationType → String
  | .STRONG_YES => "STRONG_YES"
  | .YES => "YES"
  | .MAYBE => "MAYBE"
  | .NO => "NO"
  | .STRONG_NO => "STRONG_NO"

/-- The `RecommendationType(x)` enum constructor: succeeds exactly on the
five `.value` strings (a `ValueError` in Python is `none` here). -/
def RecommendationType.ofValue? : String → Option RecommendationType
  | "STRONG_YES" => some .STRONG_YES
  | "YES" => some .YES
  | "MAYBE" => some .MAYBE
  | "NO" => some .NO
  | "STRONG_NO" => some .STRONG_NO
  | _ => none

/-- `InterviewPriority` enum of `models.py`. -/
inductive InterviewPriority where
  | HIGH
  | MEDIUM
  | LOW
deriving DecidableEq, Repr

/-- The `Evaluation` dataclass of `models.py`.  `timestamp` is a `datetime`
in the source; only its total order is ever used, so it is a `Nat` here. -/
structure Evaluation where
  candidate_name : String
  job_name : String
  overall_score : Int
  recommendation : RecommendationType
  strengths : List String
  concerns : List String
  interview_priority : InterviewPriority
  detailed_notes : String
  timestamp : Nat
  ai_insights_used : Option String
  evaluation_id : String
deriving DecidableEq, Repr

/-! ## Screening-filter configuration

A screening filter rule, as read from `screening_filters.json`: `id`,
`enabled` (default true) and an `action` object with optional
`set_recommendation`, `cap_recommendation` and `deduct_points` keys.
`deduct_points` is fed to Python `int(...)` by the enforcer, which can fail
on a non-numeric value; `DeductVal.invalid` models such a value. -/

/-- A `deduct_points` value: either one that `int(...)` converts, or a
non-numeric value on which `int(...)` raises. -/
inductive DeductVal where
  | num (n : Int)
  | invalid
deriving DecidableEq, Repr

/-- Result of Python `int(...)` on a `DeductVal` (`none` = exception). -/
def DeductVal.toInt? : DeductVal → Option Int
  | .num n => some n
  | .invalid => none

/-- The `action` object of a screening filter rule. -/
structure FilterAction where
  set_recommendation : Option String := none
  cap_recommendation : Option String := none
  deduct_points : Option DeductVal := none
deriving DecidableEq, Repr

/-- One entry of the `filters` list of `screening_filters.json`. -/
structure ScreeningFilter where
  id : String
  enabled : Bool := true
  action : FilterAction := {}
deriving DecidableEq, Repr

/-- The whole screening-filter configuration (`{"filters": [...]}`). -/
structure ScreeningFilters where
  filters : List ScreeningFilter
deriving DecidableEq, Repr

/-- Python truthiness of an optional string (`None` and `""` are falsy). -/
def strTruthy : Option String → Bool
  | none => false
  | some s => !(s == "")

/-! ## The Policy Enforcer (`src/policy/filter_enforcer.py`) -/

/-- The literal `"Failed filters:"` marker. -/
def failedFiltersMarker : List Char := "Failed filters:".data

/-- Strip `'.'` and `' '` from both ends (Python `.strip(". ")`). -/
def stripDotSpace (l : List Char) : List Char :=
  pyStrip (fun c => c == '.' || c == ' ') l

/-- Python `[p.strip() for p in ids_part.split(",") if p.strip()]`. -/
def parseIdsPart (idsPart : List Char) : List String :=
  ((splitOnChar ',' idsPart).map (fun p => pyStrip pyIsSpace p)).filterMap
    (fun p => if p.isEmpty then none else some (String.mk p))

/-- The fallback loop of `_parse_applied_filters_from_notes`: scan every
line for one whose stripped form starts with the marker and parses to a
non-empty id list. -/
def parseNotesFallback : List (List Char) → List String
  | [] => []
  | line :: rest =>
    if startsWithL failedFiltersMarker (pyStrip pyIsSpace line) then
      let parsed :=
        parseIdsPart (stripDotSpace (pyStrip pyIsSpace
          (afterFirstSub failedFiltersMarker line)))
      if !parsed.isEmpty then parsed else parseNotesFallback rest
    else parseNotesFallback rest

/-- `_parse_applied_filters_from_notes` of `filter_enforcer.py`. -/
def parseAppliedFiltersFromNotes (notes : String) : List String :=
  if notes == "" then []
  else
    let firstLine := takeUntilChar '\n' notes.data
    let primary :=
      if containsSub failedFiltersMarker firstLine then
        parseIdsPart (stripDotSpace (pyStrip pyIsSpace
          (afterFirstSub failedFiltersMarker firstLine)))
      else []
    if !primary.isEmpty then primary
    else parseNotesFallback (pySplitlines notes.data)

/-- The `id_to_action` dict comprehension of `enforce_filters_on_evaluation`:
only rules with `enabled` (default true) are kept, and on duplicate ids the
later entry overwrites the earlier one, exactly as in a Python dict
comprehension.  `none` is a missing key (`id_to_action.get(fid) is None`). -/
def idToAction (items : List ScreeningFilter) (fid : String) : Option FilterAction :=
  ((items.filter (·.enabled)).reverse.find? (fun f => f.id == fid)).map (·.action)

/-- Accumulator of the enforcement loop: the running forced recommendation,
cap recommendation, and total deduction. -/
structure EnforceAcc where
  forced : Option String := none
  cap : Option String := none
  deduction : Int := 0
deriving DecidableEq, Repr

/-- One iteration of the enforcement loop body for a fired rule's action:
a truthy `set_recommendation` overwrites `forced`, a truthy
`cap_recommendation` overwrites `cap`, and a present `deduct_points` adds to
the deduction when `int(...)` succeeds (the `except` branch of the source
skips it otherwise). -/
def stepAction (acc : EnforceAcc) (action : FilterAction) : EnforceAcc :=
  let acc :=
    if strTruthy action.set_recommendation then
      { acc with forced := action.set_recommendation }
    else acc
  let acc :=
    if strTruthy action.cap_recommendation then
      { acc with cap := action.cap_recommendation }
    else acc
  match action.deduct_points with
  | none => acc
  | some d =>
    match d.toInt? with
    | some n => { acc with deduction := acc.deduction + n }
    | none => acc

/-- The `for fid in applied_filters` loop of `enforce_filters_on_evaluation`.
Ids absent from `id_to_action` are skipped (`continue`). -/
def accumulateActions (items : List ScreeningFilter) (applied : List String) :
    EnforceAcc :=
  applied.foldl
    (fun acc fid =>
      match idToAction items fid with
      | none => acc
      | some a => stepAction acc a)
    {}

/-- The `rec_order` list of the source, built from the five enum values. -/
def recOrder : List String :=
  [RecommendationType.STRONG_NO.value, RecommendationType.NO.value,
   RecommendationType.MAYBE.value, RecommendationType.YES.value,
   RecommendationType.STRONG_YES.value]

/-- The score-deduction step: applied only when the accumulated deduction is
positive, flooring at 0.  (`int(evaluation.overall_score)` cannot fail on a
well-typed `Evaluation`, whose `overall_score` is an `int`.) -/
def applyScoreDeduction (acc : EnforceAcc) (e : Evaluation) : Evaluation :=
  if acc.deduction > 0 then
    { e with overall_score := max 0 (e.overall_score - acc.deduction) }
  else e

/-- The recommendation override/cap step of `enforce_filters_on_evaluation`:
a truthy forced recommendation that is one of the five values wins
unconditionally; otherwise a truthy cap that is one of the five values is
applied when the current recommendation sits strictly above it in
`rec_order`.  Anything else leaves the recommendation untouched. -/
def applyRecommendation (acc : EnforceAcc) (e : Evaluation) : Evaluation :=
  if strTruthy acc.forced ∧ acc.forced.getD "" ∈ recOrder then
    { e with recommendation :=
        (RecommendationType.ofValue? (acc.forced.getD "")).getD e.recommendation }
  else if strTruthy acc.cap ∧ e.recommendation.value ∈ recOrder ∧
      acc.cap.getD "" ∈ recOrder ∧
      recOrder.indexOf (acc.cap.getD "") < recOrder.indexOf e.recommendation.value then
    { e with recommendation :=
        (RecommendationType.ofValue? (acc.cap.getD "")).getD e.recommendation }
  else e

/-- `enforce_filters_on_evaluation` of `src/policy/filter_enforcer.py`.
`none` models the `not screening_filters or not isinstance(..., dict)`
early return. -/
def enforceFiltersOnEvaluation (e : Evaluation) (sf : Option ScreeningFilters) :
    Evaluation :=
  match sf with
  | none => e
  | some sf =>
    if sf.filters.isEmpty then e
    else
      let applied := parseAppliedFiltersFromNotes e.detailed_notes
      if applied.isEmpty then e
      else
        let acc := accumulateActions sf.filters applied
        applyRecommendation acc (applyScoreDeduction acc e)

/-! ## The `ai_client.py` post-processing enforcement block

`AIClient.evaluate_candidate` contains its own copy of the enforcement
logic, operating on the parsed JSON dictionary (`evaluation_data`) before
the `Evaluation` object is built.  It differs from `filter_enforcer.py` in
three ways that are modelled faithfully here: the fired ids come first from
an explicit `rules_applied` list, its `id_to_action` map does not check
`enabled`, and a truthy forced recommendation is stored without checking
membership in `rec_order`. -/

/-- The fields of `evaluation_data` that the `ai_client.py` enforcement
block reads or writes.  A `none` is a missing key (or, for
`overall_score`, a non-numeric value failing the `isinstance` check). -/
structure EvalData where
  rules_applied : Option (List String) := none
  overall_score : Option Int := none
  recommendation : Option String := none
  detailed_notes : Option String := none
deriving DecidableEq, Repr

/-- The `applied_filters` computation of the `ai_client.py` block: prefer
the explicit `rules_applied` list; otherwise, when the marker occurs
anywhere in the notes, parse the part of the *first line* after the
marker. -/
def aiClientApplied (d : EvalData) : List String :=
  match d.rules_applied with
  | some l => l
  | none =>
    let notes := d.detailed_notes.getD ""
    if containsSub failedFiltersMarker notes.data then
      let firstLine := takeUntilChar '\n' notes.data
      parseIdsPart (stripDotSpace (pyStrip pyIsSpace
        (afterFirstSub failedFiltersMarker firstLine)))
    else []

/-- The `id_to_action.get(fid, {})` lookup of the `ai_client.py` block:
no `enabled` filtering, and a missing id yields the empty action. -/
def aiClientIdToAction (items : List ScreeningFilter) (fid : String) :
    FilterAction :=
  ((items.reverse.find? (fun f => f.id == fid)).map (·.action)).getD {}

/-- The accumulation loop of the `ai_client.py` block. -/
def aiClientAcc (items : List ScreeningFilter) (applied : List String) :
    EnforceAcc :=
  applied.foldl (fun acc fid => stepAction acc (aiClientIdToAction items fid)) {}

/-- The score-deduction step of the `ai_client.py` block: applied only when
`overall_score` passes the `isinstance((int, float))` check and the
deduction is positive. -/
def aiClientApplyScore (acc : EnforceAcc) (d : EvalData) : EvalData :=
  match d.overall_score with
  | some s =>
    if acc.deduction > 0 then
      { d with overall_score := some (max 0 (s - acc.deduction)) }
    else d
  | none => d

/-- The recommendation step of the `ai_client.py` block: a truthy forced
recommendation is stored unconditionally (no membership check, unlike
`filter_enforcer.py`); otherwise a truthy valid cap is applied when the
current recommendation (default `"NO"`) sits strictly above it. -/
def aiClientApplyRec (acc : EnforceAcc) (d : EvalData) : EvalData :=
  if strTruthy acc.forced then { d with recommendation := acc.forced }
  else if strTruthy acc.cap ∧ d.recommendation.getD "NO" ∈ recOrder ∧
      acc.cap.getD "" ∈ recOrder ∧
      recOrder.indexOf (acc.cap.getD "") <
        recOrder.indexOf (d.recommendation.getD "NO") then
    { d with recommendation := acc.cap }
  else d

/-- The enforcement block of `AIClient.evaluate_candidate` (the body of
`if screening_filters:` after a successful parse). -/
def aiClientEnforce (sf : ScreeningFilters) (d : EvalData) : EvalData :=
  let applied := aiClientApplied d
  if applied.isEmpty then d
  else
    let acc := aiClientAcc sf.filters applied
    aiClientApplyRec acc (aiClientApplyScore acc d)

/-! ## Declarative descriptions of the enforcement loop

These functions restate, directly by recursion on the list of fired
actions, what the imperative loop accumulates; they are the reference
point for the claims about deductions, forced recommendations and caps. -/

/-- The actions of the fired rules, in citation order (ids not present in
the rule set contribute nothing). -/
def firedActions (items : List ScreeningFilter) (applied : List String) :
    List FilterAction :=
  applied.filterMap (idToAction items)

/-- The last truthy value of field `f` over a list of actions. -/
def lastTruthy (f : FilterAction → Option String) :
    List FilterAction → Option String
  | [] => none
  | a :: rest =>
    match lastTruthy f rest with
    | some s => some s
    | none => if strTruthy (f a) then f a else none

/-- The last truthy `set_recommendation` among fired actions. -/
def lastSetSpec (acts : List FilterAction) : Option String :=
  lastTruthy FilterAction.set_recommendation acts

/-- The last truthy `cap_recommendation` among fired actions. -/
def lastCapSpec (acts : List FilterAction) : Option String :=
  lastTruthy FilterAction.cap_recommendation acts

/-- The total deduction: the sum of the `deduct_points` values that
`int(...)` accepts, over the fired actions. -/
def totalDeductSpec (acts : List FilterAction) : Int :=
  (acts.filterMap (fun a => a.deduct_points.bind DeductVal.toInt?)).sum

/-- The fired actions of an enforcement run, taking the early returns of
`enforce_filters_on_evaluation` into account. -/
def firedOf (e : Evaluation) (sf : Option ScreeningFilters) : List FilterAction :=
  match sf with
  | none => []
  | some sf =>
    if sf.filters.isEmpty then []
    else firedActions sf.filters (parseAppliedFiltersFromNotes e.detailed_notes)

/-! ## Lemmas relating the enforcement loop to its declarative description -/

/-! ## Claim C1: the worked Policy-Enforcer example -/

/-- Rule `{id:"A", deduct_points:10}` (enabled). -/
def ruleA : ScreeningFilter :=
  { id := "A", action := { deduct_points := some (.num 10) } }

/-- Rule `{id:"B", cap_recommendation:"MAYBE"}` (enabled). -/
def ruleB : ScreeningFilter :=
  { id := "B", action := { cap_recommendation := some "MAYBE" } }

/-- The rule set `[A, B]` of the worked example. -/
def rulesAB : ScreeningFilters := { filters := [ruleA, ruleB] }

/-- Concrete raw evaluation for the C1 witness (notes channel). -/
def c1Eval : Evaluation :=
  { candidate_name := "jane_doe", job_name := "job", overall_score := 80,
    recommendation := .YES, strengths := [], concerns := [],
    interview_priority := .HIGH,
    detailed_notes := "Failed filters: A, B", timestamp := 0,
    ai_insights_used := none, evaluation_id := "eval_1" }

/-- Concrete parsed response for the C1 witness (`rules_applied` channel). -/
def c1Data : EvalData :=
  { rules_applied := some ["A", "B"], overall_score := some 80,
    recommendation := some "YES", detailed_notes := some "" }

/-! ## Claim C2: how multiple caps and set overrides combine -/

/-- Rule capping at `NO` (the strictest of the two caps below). -/
def ruleCapNO : ScreeningFilter :=
  { id := "A", action := { cap_recommendation := some "NO" } }

/-- Rule capping at `YES`. -/
def ruleCapYES : ScreeningFilter :=
  { id := "B", action := { cap_recommendation := some "YES" } }

/-- Rule set with two caps and no `set_recommendation`. -/
def rulesC2 : ScreeningFilters := { filters := [ruleCapNO, ruleCapYES] }

/-- Evaluation citing `A` then `B` with recommendation `STRONG_YES`. -/
def evalC2 : Evaluation :=
  { candidate_name := "cand", job_name := "job", overall_score := 50,
    recommendation := .STRONG_YES, strengths := [], concerns := [],
    interview_priority := .MEDIUM,
    detailed_notes := "Failed filters: A, B", timestamp := 0,
    ai_insights_used := none, evaluation_id := "e2" }

/-- Rule with a negative `deduct_points` (C3). -/
def ruleNegDeduct : ScreeningFilter :=
  { id := "A", action := { deduct_points := some (.num (-10)) } }

/-- Rule set for the C3 counterexample. -/
def rulesC3 : ScreeningFilters := { filters := [ruleNegDeduct] }

/-- Evaluation with score 50 citing the negative-deduction rule (C3). -/
def evalC3 : Evaluation :=
  { candidate_name := "cand", job_name := "job", overall_score := 50,
    recommendation := .MAYBE, strengths := [], concerns := [],
    interview_priority := .MEDIUM, detailed_notes := "Failed filters: A",
    timestamp := 0, ai_insights_used := none, evaluation_id := "e3" }

/-- Rule deducting 20 points (the spec's floor example, C3 witness). -/
def ruleDeduct20 : ScreeningFilter :=
  { id := "D", action := { deduct_points := some (.num 20) } }

/-- Rule set for the C3 witness. -/
def rulesC3W : ScreeningFilters := { filters := [ruleDeduct20] }

/-- Evaluation with score 5 citing the 20-point rule (C3 witness). -/
def evalC3W : Evaluation :=
  { candidate_name := "cand", job_name := "job", overall_score := 5,
    recommendation := .MAYBE, strengths := [], concerns := [],
    interview_priority := .MEDIUM, detailed_notes := "Failed filters: D",
    timestamp := 0, ai_insights_used := none, evaluation_id := "e3w" }

/-- An action whose `deduct_points` makes `int(...)` raise (C4). -/
def c4ActionInvalid : FilterAction := { deduct_points := some .invalid }

/-- Concrete evaluation for the C4 witness. -/
def evalC4 : Evaluation :=
  { candidate_name := "cand", job_name := "job", overall_score := 40,
    recommendation := .YES, strengths := [], concerns := [],
    interview_priority := .MEDIUM, detailed_notes := "Failed filters: A",
    timestamp := 0, ai_insights_used := none, evaluation_id := "e4" }

/-- `FeedbackManager._maybe_generate_insights` of `src/feedback_manager.py`:
generate insights exactly when the number of feedback records is at least 2
and even.  `feedbackCount` is `len(self.get_feedback_history(job_name))`. -/
def maybeGenerateInsights (feedbackCount : Nat) : Bool :=
  decide (feedbackCount ≥ 2) && decide (feedbackCount % 2 = 0)

/-- The return value of `FeedbackManager.collect_feedback`: after saving the
feedback it reports whether insights were generated, which is exactly
`_maybe_generate_insights` applied to the feedback count after this
submission (the file IO around it is outside the embedding). -/
def collectFeedbackInsightsGenerated (feedbackCountAfter : Nat) : Bool :=
  maybeGenerateInsights feedbackCountAfter

/-- Rule deducting 10 points (C10). -/
def ruleDeduct10 : ScreeningFilter :=
  { id := "A", action := { deduct_points := some (.num 10) } }

/-- Rule set for C10. -/
def rulesC10 : ScreeningFilters := { filters := [ruleDeduct10] }

/-- Evaluation with a (documented-range-violating) negative score (C10). -/
def evalC10 : Evaluation :=
  { candidate_name := "cand", job_name := "job", overall_score := -5,
    recommendation := .MAYBE, strengths := [], concerns := [],
    interview_priority := .MEDIUM, detailed_notes := "Failed filters: A",
    timestamp := 0, ai_insights_used := none, evaluation_id := "e10" }

/-- Evaluation inside the documented 0-100 score range (C10 witness). -/
def evalC10W : Evaluation :=
  { candidate_name := "cand", job_name := "job", overall_score := 80,
    recommendation := .STRONG_YES, strengths := ["s"], concerns := ["c"],
    interview_priority := .HIGH, detailed_notes := "Failed filters: A",
    timestamp := 7, ai_insights_used := some "ins",
    evaluation_id := "e10w" }

/-! ## Identity matching (`src/file_processor.py`) -/

/-- The four identifier sets extracted for a candidate (Python
`dict[str, set[str]]` with keys emails/phones/linkedin/github). -/
structure Identifiers where
  emails : Finset String
  phones : Finset String
  linkedin : Finset String
  github : Finset String
deriving DecidableEq

/-- One key's test in `_identifiers_overlap`:
`if a_set and b_set and (a_set & b_set)` — both sets truthy (non-empty) and
their intersection truthy. -/
def overlapOn (x y : Finset String) : Bool :=
  decide (x ≠ ∅) && decide (y ≠ ∅) && decide (x ∩ y ≠ ∅)

/-- `FileProcessor._identifiers_overlap`: loop over the four keys,
returning true on the first overlapping one. -/
def identifiersOverlap (a b : Identifiers) : Bool :=
  overlapOn a.emails b.emails || overlapOn a.phones b.phones ||
  overlapOn a.linkedin b.linkedin || overlapOn a.github b.github

/-- `FileProcessor._has_any_identifiers`: at least one of the four sets is
non-empty. -/
def hasAnyIdentifiers (a : Identifiers) : Bool :=
  decide (a.emails ≠ ∅) || decide (a.phones ≠ ∅) ||
  decide (a.linkedin ≠ ∅) || decide (a.github ≠ ∅)

/-- Identity record with a single email (C5 witness, first candidate). -/
def idsShared1 : Identifiers := ⟨{"a@x.co"}, ∅, ∅, ∅⟩

/-- Identity record sharing that email, all else disjoint (C5 witness). -/
def idsShared2 : Identifiers := ⟨{"a@x.co", "b@y.co"}, {"5551234567"}, ∅, ∅⟩

/-! ## Directory resolution (`FileProcessor._determine_target_directory`) -/

/-- Metadata of an existing candidate, as loaded by
`_load_all_candidate_metadata`: directory name, directory path and
identifier sets. -/
structure CandidateRecord where
  name : String
  dir : String
  ids : Identifiers
deriving DecidableEq

/-- Which branch of `_determine_target_directory` produced the result;
`duplicateCheck` and `suffixed` are the branches that create a new flagged
or suffixed record (and write warning files), the others reuse an existing
or fresh directory. -/
inductive ResolveOutcome where
  | merged
  | duplicateCheck
  | suffixed
  | mergedByName
  | fresh
deriving DecidableEq, Repr

/-- The `(target_directory_path, final_candidate_name)` pair returned by
`_determine_target_directory`, tagged with the branch taken. -/
structure ResolveResult where
  path : String
  name : String
  outcome : ResolveOutcome
deriving DecidableEq, Repr

/-- `Config.get_candidate_path`:
`f"{self.candidates_path}/{job_name}/{candidate_name}"`. -/
def getCandidatePath (candidatesPath jobName name : String) : String :=
  candidatesPath ++ "/" ++ jobName ++ "/" ++ name

/-- The `while Path(new_path).exists()` loops of
`_determine_target_directory`: try `mk 0, mk 1, ...` until a free name is
found.  Called with fuel `takenPaths.length + 1`, which always suffices
because the candidate names are pairwise distinct. -/
def firstFreeName (mk : Nat → String) (isTaken : String → Bool) :
    Nat → Nat → String
  | i, 0 => mk i
  | i, fuel+1 =>
    if isTaken (mk i) then firstFreeName mk isTaken (i+1) fuel else mk i

/-- `FileProcessor._determine_target_directory`.  The filesystem is
abstracted by `existing` (the loaded candidate metadata, in directory
iteration order) and `takenPaths` (the paths for which `Path(...).exists()`
is true); the side effects of each branch (mkdir, warning files) are
recorded in the `outcome` tag. -/
def determineTargetDirectory (candidatesPath jobName : String)
    (candidateName : String) (ids : Identifiers)
    (existing : List CandidateRecord) (takenPaths : List String) :
    ResolveResult :=
  match existing.filter (fun r => identifiersOverlap ids r.ids) with
  | firstMatch :: _ =>
    if firstMatch.name ≠ candidateName then
      let mk := fun (i : Nat) =>
        if i = 0 then candidateName ++ "__DUPLICATE_CHECK"
        else candidateName ++ "__DUPLICATE_CHECK_" ++ toString (i + 1)
      let isTaken := fun n =>
        takenPaths.contains (getCandidatePath candidatesPath jobName n)
      let newName := firstFreeName mk isTaken 0 (takenPaths.length + 1)
      { path := getCandidatePath candidatesPath jobName newName,
        name := newName, outcome := .duplicateCheck }
    else
      { path := firstMatch.dir, name := firstMatch.name, outcome := .merged }
  | [] =>
    match existing.filter (fun r => r.name == candidateName) with
    | existingRec :: _ =>
      if hasAnyIdentifiers ids && hasAnyIdentifiers existingRec.ids then
        let mk := fun (i : Nat) => candidateName ++ "__" ++ toString (i + 2)
        let isTaken := fun n =>
          takenPaths.contains (getCandidatePath candidatesPath jobName n)
        let newName := firstFreeName mk isTaken 0 (takenPaths.length + 1)
        { path := getCandidatePath candidatesPath jobName newName,
          name := newName, outcome := .suffixed }
      else
        { path := existingRec.dir, name := existingRec.name,
          outcome := .mergedByName }
    | [] =>
      { path := getCandidatePath candidatesPath jobName candidateName,
        name := candidateName, outcome := .fresh }

/-- Existing record `X` sharing one email with the C7 submission. -/
def recX : CandidateRecord :=
  { name := "X", dir := "cands/j/X", ids := ⟨{"e1@x.co"}, ∅, ∅, ∅⟩ }

/-- Existing record `Y`, the candidate being exactly resubmitted in C7. -/
def recY : CandidateRecord :=
  { name := "Y", dir := "cands/j/Y",
    ids := ⟨{"e1@x.co", "e2@x.co"}, ∅, ∅, ∅⟩ }

/-! ## Evaluation deduplication (`src/output_generator.py`) -/

/-- Python `str <` on two strings: lexicographic by code point. -/
def pyStrLt : List Char → List Char → Bool
  | [], [] => false
  | [], _ :: _ => true
  | _ :: _, [] => false
  | a :: as, b :: bs =>
    if a < b then true else if b < a then false else pyStrLt as bs

/-- Stable insertion for `pySorted`: the new element goes after all
elements not greater than it, as in Python's stable `sorted`. -/
def insertSortedStr (x : List Char) : List (List Char) → List (List Char)
  | [] => [x]
  | y :: ys => if pyStrLt x y then x :: y :: ys else y :: insertSortedStr x ys

/-- Python `sorted` on a list of strings (stable, code-point order). -/
def pySorted (l : List (List Char)) : List (List Char) :=
  l.foldl (fun acc x => insertSortedStr x acc) []

/-- The `type_suffixes` list of `_normalize_candidate_name`. -/
def typeSuffixes : List String :=
  ["_resume", "_application", "_cover", "_coverletter"]

/-- Python `"_".join(...)` on the sorted parts. -/
def joinUnderscore : List (List Char) → List Char
  | [] => []
  | [p] => p
  | p :: rest => p ++ '_' :: joinUnderscore rest

/-- `OutputGenerator._normalize_candidate_name`: lowercase, drop the first
matching file-type suffix, split on `_` dropping empty parts; a single part
is returned as is, two or more parts are sorted and rejoined with `_`. -/
def normalizeCandidateName (name : String) : String :=
  let normalized := name.data.map Char.toLower
  let normalized :=
    match typeSuffixes.find? (fun suf => suf.data.isSuffixOf normalized) with
    | some suf => normalized.take (normalized.length - suf.data.length)
    | none => normalized
  let parts := (splitOnChar '_' normalized).filter (fun p => !p.isEmpty)
  match parts with
  | [] => String.mk normalized
  | [p] => String.mk p
  | ps => String.mk (joinUnderscore (pySorted ps))

/-- `OutputGenerator._are_same_candidate`: equal normalized names, or the
part sets (from splitting the normalized names on `_`) are both non-empty,
intersect, and one is a subset of the other. -/
def areSameCandidate (name1 name2 : String) : Bool :=
  let norm1 := normalizeCandidateName name1
  let norm2 := normalizeCandidateName name2
  if norm1 == norm2 then true
  else
    let parts1 := ((splitOnChar '_' norm1.data).map String.mk).toFinset
    let parts2 := ((splitOnChar '_' norm2.data).map String.mk).toFinset
    decide (parts1 ≠ ∅) && decide (parts2 ≠ ∅) &&
    decide ((parts1 ∩ parts2) ≠ ∅) &&
    decide (parts1 ⊆ parts2 ∨ parts2 ⊆ parts1)

/-- Python `len(name.split("_"))`, the "more parts = more specific"
measure of `_deduplicate_evaluations` (empty pieces count, as in Python). -/
def tokenCount (name : String) : Nat := (splitOnChar '_' name.data).length

/-- The conflict resolution of `_deduplicate_evaluations`: prefer the name
with more parts; on a tie, prefer the strictly newer timestamp, otherwise
keep the existing entry. -/
def resolveDuplicate (existingE newE : Evaluation) : Evaluation :=
  if tokenCount newE.candidate_name > tokenCount existingE.candidate_name then
    newE
  else if tokenCount existingE.candidate_name >
      tokenCount newE.candidate_name then
    existingE
  else if newE.timestamp > existingE.timestamp then newE
  else existingE

/-- One step of the deduplication loop: replace the first same-candidate
entry in the unique list, or append at the end. -/
def dedupInsert : List Evaluation → Evaluation → List Evaluation
  | [], e => [e]
  | ex :: rest, e =>
    if areSameCandidate e.candidate_name ex.candidate_name then
      resolveDuplicate ex e :: rest
    else ex :: dedupInsert rest e

/-- `OutputGenerator._deduplicate_evaluations`. -/
def deduplicateEvaluations (evals : List Evaluation) : List Evaluation :=
  evals.foldl dedupInsert []

/-- An evaluation with the given candidate name and timestamp (C8). -/
def mkNamedEval (name : String) (ts : Nat) : Evaluation :=
  { candidate_name := name, job_name := "job", overall_score := 50,
    recommendation := .MAYBE, strengths := [], concerns := [],
    interview_priority := .MEDIUM, detailed_notes := "", timestamp := ts,
    ai_insights_used := none, evaluation_id := "e8" }

/-! ## Identifier extraction (`FileProcessor._extract_identifiers_from_text`)

The four module-level regexes of `file_processor.py` are embedded as
abstract syntax trees interpreted by a backtracking matcher with Python
`re` semantics: leftmost alternation preference and greedy (longest-first)
repetition with backtracking.  Repetition only ever applies to a single
character class in these patterns, which the `repGE`/`repUpTo` constructors
reflect. -/

/-- Regular-expression ASTs for the contact patterns: the empty pattern,
one character of a class, sequencing, alternation (left-preferring), greedy
option, greedy `{lo,}` and `{lo,hi}` repetition of a character class, and
the zero-width word boundary `\b`. -/
inductive RE where
  | eps
  | cls (p : Char → Bool)
  | seq (a b : RE)
  | alt (a b : RE)
  | opt (a : RE)
  | repGE (p : Char → Bool) (lo : Nat)
  | repUpTo (p : Char → Bool) (lo hi : Nat)
  | wordB

/-- Python `\w` (ASCII part): letters, digits, underscore. -/
def isWordChar (c : Char) : Bool := c.isAlphanum || c == '_'

/-- Consume `n` characters, tracking the previous character (for `\b`). -/
def takeCount (prev : Option Char) (s : List Char) : Nat → Option Char × List Char
  | 0 => (prev, s)
  | n+1 =>
    match s with
    | [] => (prev, [])
    | c :: rest => takeCount (some c) rest n

/-- Greedy repetition driver: try consuming `n, n-1, ..., lo` characters of
the run, longest first, resuming the continuation after each attempt. -/
def tryCounts {α : Type} (prev : Option Char) (s : List Char) (lo : Nat)
    (k : Option Char → List Char → Option α) : Nat → Option α
  | 0 => if lo = 0 then k prev s else none
  | n+1 =>
    (if lo ≤ n+1 then
      (let pr := takeCount prev s (n+1)
       k pr.1 pr.2)
     else none)
    <|> tryCounts prev s lo k n

/-- The backtracking matcher: match `r` at the head of `s` (with `prev` the
character before `s`, for word boundaries) and resume `k` on the remainder;
`none` means no match along any backtracking path. -/
def reMatch {α : Type} : RE → Option Char → List Char →
    (Option Char → List Char → Option α) → Option α
  | .eps, prev, s, k => k prev s
  | .cls p, _prev, s, k =>
    match s with
    | [] => none
    | c :: rest => if p c then k (some c) rest else none
  | .seq a b, prev, s, k => reMatch a prev s (fun p2 s2 => reMatch b p2 s2 k)
  | .alt a b, prev, s, k => reMatch a prev s k <|> reMatch b prev s k
  | .opt a, prev, s, k => reMatch a prev s k <|> k prev s
  | .repGE p lo, prev, s, k => tryCounts prev s lo k (s.takeWhile p).length
  | .repUpTo p lo hi, prev, s, k =>
    tryCounts prev s lo k (min hi (s.takeWhile p).length)
  | .wordB, prev, s, k =>
    let pw := match prev with | some c => isWordChar c | none => false
    let nw := match s with | c :: _ => isWordChar c | [] => false
    if pw != nw then k prev s else none

/-- `re.finditer` scan: non-overlapping matches left to right, resuming
after each match (advancing one character on a zero-width match, and one
character when no match starts at the current position).  `fuel` is
`length + 1`, which always suffices since every step shortens the text. -/
def finditerAux {α : Type}
    (step : Option Char → List Char → Option (α × Option Char × List Char)) :
    Nat → Option Char → List Char → List α
  | 0, _, _ => []
  | fuel+1, prev, s =>
    match step prev s with
    | some (a, p2, s2) =>
      if s2.length < s.length then a :: finditerAux step fuel p2 s2
      else
        match s with
        | [] => [a]
        | c :: rest => a :: finditerAux step fuel (some c) rest
    | none =>
      match s with
      | [] => []
      | c :: rest => finditerAux step fuel (some c) rest

/-- Run a finditer scan over a whole text. -/
def pyFinditer {α : Type}
    (step : Option Char → List Char → Option (α × Option Char × List Char))
    (text : List Char) : List α :=
  finditerAux step (text.length + 1) none text

/-- A finditer step yielding the whole match (`m.group(0)`). -/
def matchStep (r : RE) (prev : Option Char) (s : List Char) :
    Option (List Char × Option Char × List Char) :=
  reMatch r prev s (fun p2 s2 => some (s.take (s.length - s2.length), p2, s2))

/-- A finditer step for the profile regexes, which end in a captured
`(class)+`: match the pattern before the capture, then take the maximal
non-empty run of capture-class characters as `m.group(1)`; an empty run
fails the match (forcing backtracking into the pattern). -/
def captureStep (pre : RE) (cap : Char → Bool) (prev : Option Char)
    (s : List Char) : Option (List Char × Option Char × List Char) :=
  reMatch pre prev s (fun p2 s2 =>
    let handle := s2.takeWhile cap
    if handle.isEmpty then none
    else
      some (handle,
        (match handle.getLast? with | some c => some c | none => p2),
        s2.drop handle.length))

/-- Class `[A-Za-z0-9._%+-]` (email local part). -/
def emailLocalChar (c : Char) : Bool :=
  c.isAlpha || c.isDigit || c == '.' || c == '_' || c == '%' || c == '+' ||
  c == '-'

/-- Class `[A-Za-z0-9.-]` (email domain). -/
def emailDomainChar (c : Char) : Bool :=
  c.isAlpha || c.isDigit || c == '.' || c == '-'

/-- Class `[ .-]` (phone separators). -/
def sepChar (c : Char) : Bool := c == ' ' || c == '.' || c == '-'

/-- Class `[A-Za-z0-9\-_%]` (LinkedIn handle). -/
def linkedinHandleChar (c : Char) : Bool :=
  c.isAlpha || c.isDigit || c == '-' || c == '_' || c == '%'

/-- Class `[A-Za-z0-9\-]` (GitHub handle). -/
def githubHandleChar (c : Char) : Bool :=
  c.isAlpha || c.isDigit || c == '-'

/-- Case-insensitive literal (for the `re.I` profile patterns). -/
def litCharsCI : List Char → RE
  | [] => .eps
  | [c] => .cls (fun x => x.toLower == c.toLower)
  | c :: rest => .seq (.cls (fun x => x.toLower == c.toLower)) (litCharsCI rest)

/-- Case-insensitive literal from a string. -/
def litCI (s : String) : RE := litCharsCI s.data

/-- `EMAIL_RE`: `[A-Za-z0-9._%+-]+@[A-Za-z0-9.-]+\.[A-Za-z]{2,}`. -/
def emailRE : RE :=
  .seq (.repGE emailLocalChar 1)
    (.seq (.cls (· == '@'))
      (.seq (.repGE emailDomainChar 1)
        (.seq (.cls (· == '.')) (.repGE Char.isAlpha 2))))

/-- `PHONE_RE`:
`(?:\+?\d{1,3}[ .-]?)?(?:\(?\d{3}\)?|\d{3})[ .-]?\d{3}[ .-]?\d{4}\b`. -/
def phoneRE : RE :=
  .seq (.opt (.seq (.opt (.cls (· == '+')))
    (.seq (.repUpTo Char.isDigit 1 3) (.opt (.cls sepChar)))))
  (.seq (.alt
      (.seq (.opt (.cls (· == '(')))
        (.seq (.repUpTo Char.isDigit 3 3) (.opt (.cls (· == ')')))))
      (.repUpTo Char.isDigit 3 3))
  (.seq (.opt (.cls sepChar))
  (.seq (.repUpTo Char.isDigit 3 3)
  (.seq (.opt (.cls sepChar))
  (.seq (.repUpTo Char.isDigit 4 4) .wordB)))))

/-- `LINKEDIN_RE` up to its capture group:
`(?:https?://)?(?:www\.)?linkedin\.com/(?:in|pub|mwlite/in)/` (case
insensitive). -/
def linkedinPreRE : RE :=
  .seq (.opt (.seq (litCI "http")
    (.seq (.opt (.cls (fun c => c.toLower == 's'))) (litCI "://"))))
  (.seq (.opt (litCI "www."))
  (.seq (litCI "linkedin.com/")
  (.seq (.alt (litCI "in") (.alt (litCI "pub") (litCI "mwlite/in")))
    (litCI "/"))))

/-- `GITHUB_RE` up to its capture group:
`(?:https?://)?(?:www\.)?github\.com/` (case insensitive). -/
def githubPreRE : RE :=
  .seq (.opt (.seq (litCI "http")
    (.seq (.opt (.cls (fun c => c.toLower == 's'))) (litCI "://"))))
  (.seq (.opt (litCI "www.")) (litCI "github.com/"))

/-- `EMAIL_RE.finditer(text)`, full matches. -/
def emailMatches (text : List Char) : List (List Char) :=
  pyFinditer (matchStep emailRE) text

/-- `PHONE_RE.finditer(text)`, full matches. -/
def phoneMatches (text : List Char) : List (List Char) :=
  pyFinditer (matchStep phoneRE) text

/-- `LINKEDIN_RE.finditer(text)`, captured handles (`m.group(1)`). -/
def linkedinHandleMatches (text : List Char) : List (List Char) :=
  pyFinditer (captureStep linkedinPreRE linkedinHandleChar) text

/-- `GITHUB_RE.finditer(text)`, captured handles (`m.group(1)`). -/
def githubHandleMatches (text : List Char) : List (List Char) :=
  pyFinditer (captureStep githubPreRE githubHandleChar) text

/-- Value of a hex digit, if any. -/
def hexDigitVal? (c : Char) : Option Nat :=
  if '0' ≤ c ∧ c ≤ '9' then some (c.toNat - '0'.toNat)
  else if 'a' ≤ c ∧ c ≤ 'f' then some (c.toNat - 'a'.toNat + 10)
  else if 'A' ≤ c ∧ c ≤ 'F' then some (c.toNat - 'A'.toNat + 10)
  else none

/-- The percent-decoding pass of `urllib.parse.unquote`: each valid `%hh`
becomes the byte `hh`, an invalid sequence keeps its `%` literally; other
characters (all ASCII in the handle classes) contribute their code
points. -/
def percentDecode : List Char → List Nat
  | '%' :: a :: b :: rest =>
    match hexDigitVal? a, hexDigitVal? b with
    | some x, some y => (16 * x + y) :: percentDecode rest
    | _, _ => '%'.toNat :: percentDecode (a :: b :: rest)
  | c :: rest => c.toNat :: percentDecode rest
  | [] => []

/-- The U+FFFD replacement character used by `errors="replace"`. -/
def replacementChar : Char := '\uFFFD'

/-- Worker for `utf8Decode`, structurally recursive on a fuel that starts
at the byte count (every step consumes at least one byte, so the fuel never
runs out before the input does). -/
def utf8DecodeFuel : Nat → List Nat → List Char
  | 0, _ => []
  | _+1, [] => []
  | fuel+1, b :: rest =>
    if b < 0x80 then Char.ofNat b :: utf8DecodeFuel fuel rest
    else if 0xC2 ≤ b ∧ b ≤ 0xDF then
      match rest with
      | b2 :: rest2 =>
        if 0x80 ≤ b2 ∧ b2 ≤ 0xBF then
          Char.ofNat ((b - 0xC0) * 0x40 + (b2 - 0x80)) ::
            utf8DecodeFuel fuel rest2
        else replacementChar :: utf8DecodeFuel fuel (b2 :: rest2)
      | [] => [replacementChar]
    else if 0xE0 ≤ b ∧ b ≤ 0xEF then
      match rest with
      | b2 :: b3 :: rest3 =>
        if 0x80 ≤ b2 ∧ b2 ≤ 0xBF ∧ 0x80 ≤ b3 ∧ b3 ≤ 0xBF then
          Char.ofNat ((b - 0xE0) * 0x1000 + (b2 - 0x80) * 0x40 + (b3 - 0x80))
            :: utf8DecodeFuel fuel rest3
        else replacementChar :: utf8DecodeFuel fuel (b2 :: b3 :: rest3)
      | _ => [replacementChar]
    else if 0xF0 ≤ b ∧ b ≤ 0xF4 then
      match rest with
      | b2 :: b3 :: b4 :: rest4 =>
        if 0x80 ≤ b2 ∧ b2 ≤ 0xBF ∧ 0x80 ≤ b3 ∧ b3 ≤ 0xBF ∧
            0x80 ≤ b4 ∧ b4 ≤ 0xBF then
          Char.ofNat ((b - 0xF0) * 0x40000 + (b2 - 0x80) * 0x1000 +
            (b3 - 0x80) * 0x40 + (b4 - 0x80)) :: utf8DecodeFuel fuel rest4
        else replacementChar :: utf8DecodeFuel fuel (b2 :: b3 :: b4 :: rest4)
      | _ => [replacementChar]
    else replacementChar :: utf8DecodeFuel fuel rest

/-- UTF-8 decoding with replacement of malformed sequences, as
`unquote`'s `bytes.decode("utf-8", errors="replace")`. -/
def utf8Decode (l : List Nat) : List Char := utf8DecodeFuel l.length l

/-- `urllib.parse.unquote` on the ASCII handle strings produced by the
profile regexes. -/
def pyUnquote (s : List Char) : List Char := utf8Decode (percentDecode s)

/-- `_normalize_profile_url`: unquote the handle, strip whitespace, strip
slashes, and lowercase `f"{base}/{handle}"`. -/
def normalizeProfileUrl (base : String) (handle : String) : String :=
  let h := pyStrip (fun c => c == '/') (pyStrip pyIsSpace (pyUnquote handle.data))
  String.mk ((base.data ++ '/' :: h).map Char.toLower)

/-- `FileProcessor._extract_identifiers_from_text`: empty text yields four
empty sets; otherwise emails are lowercased full matches, phones keep
digits only, and profile handles longer than one character are normalized
into canonical URLs. -/
def extractIdentifiersFromText (text : String) : Identifiers :=
  if text == "" then ⟨∅, ∅, ∅, ∅⟩
  else
    { emails := ((emailMatches text.data).map
        (fun m => String.mk (m.map Char.toLower))).toFinset,
      phones := ((phoneMatches text.data).map
        (fun m => String.mk (m.filter Char.isDigit))).toFinset,
      linkedin := ((linkedinHandleMatches text.data).filterMap
        (fun h => if h.isEmpty = false ∧ h.length > 1 then
            some (normalizeProfileUrl "https://linkedin.com/in" (String.mk h))
          else none)).toFinset,
      github := ((githubHandleMatches text.data).filterMap
        (fun h => if h.isEmpty = false ∧ h.length > 1 then
            some (normalizeProfileUrl "https://github.com" (String.mk h))
          else none)).toFinset }

/-! ## Theorems -/

theorem stepAction_forced (acc : EnforceAcc) (a : FilterAction) :
    (stepAction acc a).forced =
      if strTruthy a.set_recommendation then a.set_recommendation
      else acc.forced := by
  unfold stepAction
  cases hd : a.deduct_points with
  | none =>
    by_cases h1 : strTruthy a.set_recommendation <;>
      by_cases h2 : strTruthy a.cap_recommendation <;> simp [h1, h2]
  | some d =>
    cases hi : d.toInt? <;>
      by_cases h1 : strTruthy a.set_recommendation <;>
        by_cases h2 : strTruthy a.cap_recommendation <;> simp [h1, h2, hi]

theorem stepAction_cap (acc : EnforceAcc) (a : FilterAction) :
    (stepAction acc a).cap =
      if strTruthy a.cap_recommendation then a.cap_recommendation
      else acc.cap := by
  unfold stepAction
  cases hd : a.deduct_points with
  | none =>
    by_cases h1 : strTruthy a.set_recommendation <;>
      by_cases h2 : strTruthy a.cap_recommendation <;> simp [h1, h2]
  | some d =>
    cases hi : d.toInt? <;>
      by_cases h1 : strTruthy a.set_recommendation <;>
        by_cases h2 : strTruthy a.cap_recommendation <;> simp [h1, h2, hi]

theorem stepAction_deduction (acc : EnforceAcc) (a : FilterAction) :
    (stepAction acc a).deduction =
      acc.deduction + ((a.deduct_points.bind DeductVal.toInt?).getD 0) := by
  unfold stepAction
  cases hd : a.deduct_points with
  | none =>
    by_cases h1 : strTruthy a.set_recommendation <;>
      by_cases h2 : strTruthy a.cap_recommendation <;> simp [h1, h2]
  | some d =>
    cases hi : d.toInt? <;>
      by_cases h1 : strTruthy a.set_recommendation <;>
        by_cases h2 : strTruthy a.cap_recommendation <;> simp [h1, h2, hi]

theorem foldl_lookup_eq (items : List ScreeningFilter) :
    ∀ (applied : List String) (acc : EnforceAcc),
      applied.foldl
        (fun acc fid =>
          match idToAction items fid with
          | none => acc
          | some a => stepAction acc a) acc
      = (firedActions items applied).foldl stepAction acc := by
  intro applied
  induction applied with
  | nil => intro acc; rfl
  | cons fid rest ih =>
    intro acc
    simp only [List.foldl_cons, firedActions, List.filterMap_cons]
    cases h : idToAction items fid with
    | none => simpa [h, firedActions] using ih acc
    | some a => simpa [h, firedActions] using ih (stepAction acc a)

theorem foldl_stepAction_forced :
    ∀ (l : List FilterAction) (acc : EnforceAcc),
      (l.foldl stepAction acc).forced =
        match lastSetSpec l with
        | some s => some s
        | none => acc.forced := by
  intro l
  induction l with
  | nil => intro acc; rfl
  | cons a rest ih =>
    intro acc
    simp only [List.foldl_cons, ih, lastSetSpec, lastTruthy]
    cases hr : lastTruthy FilterAction.set_recommendation rest with
    | some s => simp [lastSetSpec, hr]
    | none =>
      simp only [lastSetSpec, hr, stepAction_forced]
      by_cases h1 : strTruthy a.set_recommendation <;> simp [h1]
      cases hs : a.set_recommendation with
      | none => rw [hs] at h1; simp [strTruthy] at h1
      | some s => simp

theorem foldl_stepAction_cap :
    ∀ (l : List FilterAction) (acc : EnforceAcc),
      (l.foldl stepAction acc).cap =
        match lastCapSpec l with
        | some s => some s
        | none => acc.cap := by
  intro l
  induction l with
  | nil => intro acc; rfl
  | cons a rest ih =>
    intro acc
    simp only [List.foldl_cons, ih, lastCapSpec, lastTruthy]
    cases hr : lastTruthy FilterAction.cap_recommendation rest with
    | some s => simp [lastCapSpec, hr]
    | none =>
      simp only [lastCapSpec, hr, stepAction_cap]
      by_cases h1 : strTruthy a.cap_recommendation <;> simp [h1]
      cases hs : a.cap_recommendation with
      | none => rw [hs] at h1; simp [strTruthy] at h1
      | some s => simp

theorem totalDeductSpec_cons (a : FilterAction) (rest : List FilterAction) :
    totalDeductSpec (a :: rest) =
      ((a.deduct_points.bind DeductVal.toInt?).getD 0) + totalDeductSpec rest := by
  unfold totalDeductSpec
  cases h : a.deduct_points.bind DeductVal.toInt? <;>
    simp [List.filterMap_cons, h]

theorem foldl_stepAction_deduction :
    ∀ (l : List FilterAction) (acc : EnforceAcc),
      (l.foldl stepAction acc).deduction = acc.deduction + totalDeductSpec l := by
  intro l
  induction l with
  | nil => intro acc; simp [totalDeductSpec]
  | cons a rest ih =>
    intro acc
    simp only [List.foldl_cons, ih, stepAction_deduction, totalDeductSpec_cons]
    ring

theorem accumulateActions_forced (items : List ScreeningFilter)
    (applied : List String) :
    (accumulateActions items applied).forced =
      lastSetSpec (firedActions items applied) := by
  unfold accumulateActions
  rw [foldl_lookup_eq, foldl_stepAction_forced]
  cases lastSetSpec (firedActions items applied) <;> rfl

theorem accumulateActions_cap (items : List ScreeningFilter)
    (applied : List String) :
    (accumulateActions items applied).cap =
      lastCapSpec (firedActions items applied) := by
  unfold accumulateActions
  rw [foldl_lookup_eq, foldl_stepAction_cap]
  cases lastCapSpec (firedActions items applied) <;> rfl

theorem accumulateActions_deduction (items : List ScreeningFilter)
    (applied : List String) :
    (accumulateActions items applied).deduction =
      totalDeductSpec (firedActions items applied) := by
  unfold accumulateActions
  rw [foldl_lookup_eq, foldl_stepAction_deduction]
  simp

theorem lastTruthy_truthy (f : FilterAction → Option String) :
    ∀ (l : List FilterAction) (s : String),
      lastTruthy f l = some s → s ≠ "" := by
  intro l
  induction l with
  | nil => intro s h; simp [lastTruthy] at h
  | cons a rest ih =>
    intro s h
    rw [lastTruthy] at h
    cases hr : lastTruthy f rest with
    | some t =>
      rw [hr] at h
      simp only [Option.some.injEq] at h
      exact h ▸ ih t hr
    | none =>
      rw [hr] at h
      simp only [] at h
      by_cases h1 : strTruthy (f a)
      · rw [if_pos h1] at h
        rw [h] at h1
        simpa [strTruthy] using h1
      · rw [if_neg h1] at h; cases h

theorem value_mem_recOrder (r : RecommendationType) : r.value ∈ recOrder := by
  cases r <;> simp [recOrder, RecommendationType.value]

theorem applyScoreDeduction_rec (acc : EnforceAcc) (e : Evaluation) :
    (applyScoreDeduction acc e).recommendation = e.recommendation := by
  unfold applyScoreDeduction; split <;> rfl

theorem applyRecommendation_score (acc : EnforceAcc) (e : Evaluation) :
    (applyRecommendation acc e).overall_score = e.overall_score := by
  unfold applyRecommendation
  split
  · rfl
  · split <;> rfl

theorem enforce_some_eq (e : Evaluation) (sf : ScreeningFilters) :
    enforceFiltersOnEvaluation e (some sf) =
      if sf.filters.isEmpty then e
      else
        if (parseAppliedFiltersFromNotes e.detailed_notes).isEmpty then e
        else
          applyRecommendation
            (accumulateActions sf.filters
              (parseAppliedFiltersFromNotes e.detailed_notes))
            (applyScoreDeduction
              (accumulateActions sf.filters
                (parseAppliedFiltersFromNotes e.detailed_notes)) e) :=
  rfl

theorem aiClientEnforce_eq (sf : ScreeningFilters) (d : EvalData) :
    aiClientEnforce sf d =
      if (aiClientApplied d).isEmpty then d
      else
        aiClientApplyRec (aiClientAcc sf.filters (aiClientApplied d))
          (aiClientApplyScore (aiClientAcc sf.filters (aiClientApplied d)) d) :=
  rfl

theorem applyScoreDeduction_frame (acc : EnforceAcc) (e : Evaluation) :
    (applyScoreDeduction acc e).candidate_name = e.candidate_name ∧
    (applyScoreDeduction acc e).job_name = e.job_name ∧
    (applyScoreDeduction acc e).recommendation = e.recommendation ∧
    (applyScoreDeduction acc e).strengths = e.strengths ∧
    (applyScoreDeduction acc e).concerns = e.concerns ∧
    (applyScoreDeduction acc e).interview_priority = e.interview_priority ∧
    (applyScoreDeduction acc e).detailed_notes = e.detailed_notes ∧
    (applyScoreDeduction acc e).timestamp = e.timestamp ∧
    (applyScoreDeduction acc e).ai_insights_used = e.ai_insights_used ∧
    (applyScoreDeduction acc e).evaluation_id = e.evaluation_id := by
  unfold applyScoreDeduction
  split <;> exact ⟨rfl, rfl, rfl, rfl, rfl, rfl, rfl, rfl, rfl, rfl⟩

theorem applyRecommendation_frame (acc : EnforceAcc) (e : Evaluation) :
    (applyRecommendation acc e).candidate_name = e.candidate_name ∧
    (applyRecommendation acc e).job_name = e.job_name ∧
    (applyRecommendation acc e).overall_score = e.overall_score ∧
    (applyRecommendation acc e).strengths = e.strengths ∧
    (applyRecommendation acc e).concerns = e.concerns ∧
    (applyRecommendation acc e).interview_priority = e.interview_priority ∧
    (applyRecommendation acc e).detailed_notes = e.detailed_notes ∧
    (applyRecommendation acc e).timestamp = e.timestamp ∧
    (applyRecommendation acc e).ai_insights_used = e.ai_insights_used ∧
    (applyRecommendation acc e).evaluation_id = e.evaluation_id := by
  unfold applyRecommendation
  split
  · exact ⟨rfl, rfl, rfl, rfl, rfl, rfl, rfl, rfl, rfl, rfl⟩
  · split <;> exact ⟨rfl, rfl, rfl, rfl, rfl, rfl, rfl, rfl, rfl, rfl⟩

theorem applyScoreDeduction_score (acc : EnforceAcc) (e : Evaluation) :
    (applyScoreDeduction acc e).overall_score =
      if acc.deduction > 0 then max 0 (e.overall_score - acc.deduction)
      else e.overall_score := by
  unfold applyScoreDeduction
  split <;> simp_all

theorem rulesAB_acc (l : List String)
    (h : l = ["A", "B"] ∨ l = ["B", "A"]) :
    accumulateActions rulesAB.filters l =
      { forced := none, cap := some "MAYBE", deduction := 10 } := by
  rcases h with rfl | rfl <;> decide

theorem rulesAB_aiAcc (l : List String)
    (h : l = ["A", "B"] ∨ l = ["B", "A"]) :
    aiClientAcc rulesAB.filters l =
      { forced := none, cap := some "MAYBE", deduction := 10 } := by
  rcases h with rfl | rfl <;> decide

theorem applyRecommendation_capMAYBE (e : Evaluation)
    (h : e.recommendation = .YES) :
    (applyRecommendation
      { forced := none, cap := some "MAYBE", deduction := 10 } e).recommendation
      = .MAYBE := by
  unfold applyRecommendation
  dsimp only
  rw [if_neg (by decide)]
  rw [if_pos ⟨by decide, by rw [h]; decide, by decide, by rw [h]; decide⟩]
  rfl

/-- C1: for the rule set `[{id:"A", deduct_points:10},
{id:"B", cap_recommendation:"MAYBE"}]` (both enabled), every raw evaluation
citing both ids — through the `"Failed filters:"` notes channel parsed by
`filter_enforcer.py`, or through the explicit `rules_applied` list handled
by the `ai_client.py` block — with `overall_score 80` and recommendation
`YES` is corrected to `overall_score 70` and recommendation `MAYBE`. -/
theorem c1_worked_example_enforcement (e : Evaluation) (d : EvalData)
    (hn : parseAppliedFiltersFromNotes e.detailed_notes = ["A", "B"] ∨
          parseAppliedFiltersFromNotes e.detailed_notes = ["B", "A"])
    (hs : e.overall_score = 80) (hr : e.recommendation = .YES)
    (hd : d.rules_applied = some ["A", "B"] ∨ d.rules_applied = some ["B", "A"])
    (hds : d.overall_score = some 80) (hdr : d.recommendation = some "YES") :
    (enforceFiltersOnEvaluation e (some rulesAB)).overall_score = 70 ∧
    (enforceFiltersOnEvaluation e (some rulesAB)).recommendation = .MAYBE ∧
    (aiClientEnforce rulesAB d).overall_score = some 70 ∧
    (aiClientEnforce rulesAB d).recommendation = some "MAYBE" := by
  have hacc := rulesAB_acc _ hn
  have happ : (parseAppliedFiltersFromNotes e.detailed_notes).isEmpty = false := by
    rcases hn with hn | hn <;> rw [hn] <;> rfl
  have henf : enforceFiltersOnEvaluation e (some rulesAB) =
      applyRecommendation { forced := none, cap := some "MAYBE", deduction := 10 }
        (applyScoreDeduction
          { forced := none, cap := some "MAYBE", deduction := 10 } e) := by
    rw [enforce_some_eq, hacc]
    rw [show rulesAB.filters.isEmpty = false from rfl, happ]
    simp
  have hsd : (applyScoreDeduction
      { forced := none, cap := some "MAYBE", deduction := 10 } e).overall_score
      = 70 := by
    rw [applyScoreDeduction_score, if_pos (by decide), hs]
    decide
  have hsr : (applyScoreDeduction
      { forced := none, cap := some "MAYBE", deduction := 10 } e).recommendation
      = .YES := by
    rw [applyScoreDeduction_rec, hr]
  have hap : aiClientApplied d = ["A", "B"] ∨ aiClientApplied d = ["B", "A"] := by
    rcases hd with hd | hd <;> [left; right] <;> simp [aiClientApplied, hd]
  have hacc2 := rulesAB_aiAcc _ hap
  have hem : (aiClientApplied d).isEmpty = false := by
    rcases hap with hap | hap <;> rw [hap] <;> rfl
  have hai : aiClientEnforce rulesAB d =
      aiClientApplyRec { forced := none, cap := some "MAYBE", deduction := 10 }
        (aiClientApplyScore
          { forced := none, cap := some "MAYBE", deduction := 10 } d) := by
    rw [aiClientEnforce_eq, hacc2, hem]
    simp
  have hds' : (aiClientApplyScore
      { forced := none, cap := some "MAYBE", deduction := 10 } d).overall_score
      = some 70 := by
    unfold aiClientApplyScore
    rw [hds]
    dsimp only
    rw [if_pos (by decide)]
    dsimp only
    norm_num
  have hdr' : (aiClientApplyScore
      { forced := none, cap := some "MAYBE", deduction := 10 } d).recommendation
      = some "YES" := by
    unfold aiClientApplyScore
    rw [hds]
    dsimp only
    rw [if_pos (by decide)]
    dsimp only
    exact hdr
  refine ⟨?_, ?_, ?_, ?_⟩
  · rw [henf, applyRecommendation_score, hsd]
  · rw [henf]
    exact applyRecommendation_capMAYBE _ hsr
  · rw [hai]
    unfold aiClientApplyRec
    rw [if_neg (by decide)]
    rw [if_pos ⟨by decide, by rw [hdr']; decide, by decide, by rw [hdr']; decide⟩]
    dsimp only
    rw [hds']
  · rw [hai]
    unfold aiClientApplyRec
    rw [if_neg (by decide)]
    rw [if_pos ⟨by decide, by rw [hdr']; decide, by decide, by rw [hdr']; decide⟩]

theorem c1_worked_example_enforcement_witness :
    (enforceFiltersOnEvaluation c1Eval (some rulesAB)).overall_score = 70 ∧
    (enforceFiltersOnEvaluation c1Eval (some rulesAB)).recommendation = .MAYBE ∧
    (aiClientEnforce rulesAB c1Data).overall_score = some 70 ∧
    (aiClientEnforce rulesAB c1Data).recommendation = some "MAYBE" :=
  c1_worked_example_enforcement c1Eval c1Data (Or.inl (by decide)) rfl rfl
    (Or.inl rfl) rfl rfl

/-- C2 counterexample: two fired caps, `NO` (strictest) then `YES`, no
`set_recommendation`, model recommendation `STRONG_YES`.  The claim says the
strictest fired cap (`NO`) is applied; the code applies the *last* fired cap
and returns `YES`. -/
theorem c2_counterexample :
    (firedOf evalC2 (some rulesC2)).map FilterAction.cap_recommendation =
      [some "NO", some "YES"] ∧
    lastSetSpec (firedOf evalC2 (some rulesC2)) = none ∧
    (enforceFiltersOnEvaluation evalC2 (some rulesC2)).recommendation =
      RecommendationType.YES ∧
    RecommendationType.YES ≠ RecommendationType.NO := by decide

/-- C2 (amended): with no fired `set_recommendation`, the enforcer applies
the *last* truthy `cap_recommendation` among the fired rules in citation
order (not the strictest), and only when it is a valid level sitting
strictly below the model's recommendation; when fired rules carry
`set_recommendation`, the last one seen (if a valid level) overrides
unconditionally and no cap is applied. -/
theorem c2_last_cap_and_set_override (e : Evaluation) (sf : ScreeningFilters)
    (hfil : sf.filters.isEmpty = false)
    (happ : (parseAppliedFiltersFromNotes e.detailed_notes).isEmpty = false) :
    (lastSetSpec (firedOf e (some sf)) = none →
      (enforceFiltersOnEvaluation e (some sf)).recommendation =
        (match lastCapSpec (firedOf e (some sf)) with
         | some c =>
           if c ∈ recOrder ∧
               recOrder.indexOf c < recOrder.indexOf e.recommendation.value then
             (RecommendationType.ofValue? c).getD e.recommendation
           else e.recommendation
         | none => e.recommendation)) ∧
    (∀ s, lastSetSpec (firedOf e (some sf)) = some s → s ∈ recOrder →
      (enforceFiltersOnEvaluation e (some sf)).recommendation =
        (RecommendationType.ofValue? s).getD e.recommendation) := by
  have hfired : firedOf e (some sf) =
      firedActions sf.filters (parseAppliedFiltersFromNotes e.detailed_notes) := by
    simp [firedOf, hfil]
  have henf : enforceFiltersOnEvaluation e (some sf) =
      applyRecommendation
        (accumulateActions sf.filters
          (parseAppliedFiltersFromNotes e.detailed_notes))
        (applyScoreDeduction
          (accumulateActions sf.filters
            (parseAppliedFiltersFromNotes e.detailed_notes)) e) := by
    rw [enforce_some_eq, hfil, happ]
    simp
  set acc := accumulateActions sf.filters
    (parseAppliedFiltersFromNotes e.detailed_notes) with hacc
  have hforced : acc.forced = lastSetSpec (firedOf e (some sf)) := by
    rw [hfired, hacc]
    exact accumulateActions_forced _ _
  have hcap : acc.cap = lastCapSpec (firedOf e (some sf)) := by
    rw [hfired, hacc]
    exact accumulateActions_cap _ _
  have herec : (applyScoreDeduction acc e).recommendation = e.recommendation :=
    applyScoreDeduction_rec acc e
  constructor
  · intro hset
    rw [henf]
    unfold applyRecommendation
    rw [herec]
    rw [show acc.forced = none from hforced.trans hset]
    rw [if_neg (by decide)]
    cases hc : lastCapSpec (firedOf e (some sf)) with
    | none =>
      rw [show acc.cap = none from hcap.trans hc]
      rw [if_neg (by rintro ⟨h1, -⟩; simp [strTruthy] at h1)]
      exact herec
    | some c =>
      rw [show acc.cap = some c from hcap.trans hc]
      have htr : c ≠ "" := lastTruthy_truthy _ _ _ hc
      by_cases hcond : c ∈ recOrder ∧
          recOrder.indexOf c < recOrder.indexOf e.recommendation.value
      · rw [if_pos ⟨by simpa [strTruthy] using htr, value_mem_recOrder _,
          hcond.1, hcond.2⟩]
        dsimp only
        rw [if_pos hcond]
        rfl
      · rw [if_neg (by
          rintro ⟨-, -, h3, h4⟩
          exact hcond ⟨h3, h4⟩)]
        rw [herec]
        simp [hcond]
  · intro s hset hmem
    rw [henf]
    unfold applyRecommendation
    rw [herec]
    rw [show acc.forced = some s from hforced.trans hset]
    have htr : s ≠ "" := lastTruthy_truthy _ _ _ hset
    rw [if_pos ⟨by simpa [strTruthy] using htr, hmem⟩]
    rfl

theorem c2_last_cap_and_set_override_witness :
    (enforceFiltersOnEvaluation evalC2 (some rulesC2)).recommendation =
      RecommendationType.YES :=
  ((c2_last_cap_and_set_override evalC2 rulesC2 rfl (by decide)).1
    (by decide)).trans (by decide)

/-- C3 counterexample: a fired rule with `deduct_points = -10` and score 50.
The claim's formula `max(0, score - sum)` gives 60, but the code only
applies deductions when the accumulated total is positive, so the score
stays 50. -/
theorem c3_counterexample :
    totalDeductSpec (firedOf evalC3 (some rulesC3)) = -10 ∧
    (enforceFiltersOnEvaluation evalC3 (some rulesC3)).overall_score = 50 ∧
    max 0 (evalC3.overall_score -
      totalDeductSpec (firedOf evalC3 (some rulesC3))) = 60 ∧
    (50 : Int) ≠ 60 := by decide

/-- C3 (amended): for every evaluation with a non-negative score, whenever
the sum of the fired rules' (convertible) `deduct_points` is non-negative —
in particular whenever all fired deductions are non-negative — the corrected
score is exactly `max 0 (score - sum)`; so score 5 with a 20-point deduction
yields 0 and the result is never negative. -/
theorem c3_score_deduction_floor (e : Evaluation) (sf : Option ScreeningFilters)
    (hscore : 0 ≤ e.overall_score)
    (hded : 0 ≤ totalDeductSpec (firedOf e sf)) :
    (enforceFiltersOnEvaluation e sf).overall_score =
      max 0 (e.overall_score - totalDeductSpec (firedOf e sf)) := by
  cases sf with
  | none =>
    show e.overall_score = max 0 (e.overall_score - totalDeductSpec [])
    have h0 : totalDeductSpec [] = 0 := rfl
    rw [h0]
    omega
  | some sf =>
    rw [enforce_some_eq]
    by_cases hfil : sf.filters.isEmpty = true
    · rw [if_pos hfil]
      have hf : firedOf e (some sf) = [] := by simp [firedOf, hfil]
      rw [hf]
      have h0 : totalDeductSpec [] = 0 := rfl
      rw [h0]
      omega
    · rw [if_neg hfil]
      have hfil' : sf.filters.isEmpty = false := by
        simpa using hfil
      have hf : firedOf e (some sf) =
          firedActions sf.filters (parseAppliedFiltersFromNotes e.detailed_notes) := by
        simp [firedOf, hfil']
      rw [hf] at hded ⊢
      by_cases happ : (parseAppliedFiltersFromNotes e.detailed_notes).isEmpty = true
      · rw [if_pos happ]
        have hnil : parseAppliedFiltersFromNotes e.detailed_notes = [] := by
          cases hp : parseAppliedFiltersFromNotes e.detailed_notes with
          | nil => rfl
          | cons a l => rw [hp] at happ; cases happ
        rw [hnil]
        have h0 : totalDeductSpec (firedActions sf.filters []) = 0 := rfl
        rw [h0]
        omega
      · rw [if_neg happ]
        rw [applyRecommendation_score, applyScoreDeduction_score,
          accumulateActions_deduction]
        by_cases hpos : totalDeductSpec
            (firedActions sf.filters
              (parseAppliedFiltersFromNotes e.detailed_notes)) > 0
        · rw [if_pos hpos]
        · rw [if_neg hpos]
          omega

theorem c3_score_deduction_floor_witness :
    (enforceFiltersOnEvaluation evalC3W (some rulesC3W)).overall_score = 0 :=
  (c3_score_deduction_floor evalC3W (some rulesC3W) (by decide)
    (by decide)).trans (by decide)

/-- C4: defensive behaviour of the Policy Enforcer.  (1) Ids cited by the
model but absent from the configured rule set contribute nothing to the
accumulated deduction, forced recommendation or cap; (2) a fired rule whose
`deduct_points` is non-numeric behaves exactly as if it had no
`deduct_points`; (3) when neither the forced nor the cap value is a truthy
member of `rec_order`, the recommendation field is left unchanged.  The
enforcer itself is a total function (every Python `try/except` is an
explicit fallback branch here), so no exception escapes. -/
theorem c4_defensive_enforcement :
    (∀ (items : List ScreeningFilter) (l : List String),
      accumulateActions items l =
        accumulateActions items
          (l.filter (fun fid => (idToAction items fid).isSome))) ∧
    (∀ (acc : EnforceAcc) (a : FilterAction),
      a.deduct_points = some .invalid →
      stepAction acc a = stepAction acc { a with deduct_points := none }) ∧
    (∀ (acc : EnforceAcc) (e : Evaluation),
      (strTruthy acc.forced = false ∨ acc.forced.getD "" ∉ recOrder) →
      (strTruthy acc.cap = false ∨ acc.cap.getD "" ∉ recOrder) →
      (applyRecommendation acc e).recommendation = e.recommendation) := by
  refine ⟨?_, ?_, ?_⟩
  · intro items l
    have key : ∀ (l : List String) (acc : EnforceAcc),
        l.foldl (fun acc fid =>
          match idToAction items fid with
          | none => acc
          | some a => stepAction acc a) acc =
        (l.filter (fun fid => (idToAction items fid).isSome)).foldl
          (fun acc fid =>
            match idToAction items fid with
            | none => acc
            | some a => stepAction acc a) acc := by
      intro l
      induction l with
      | nil => intro acc; rfl
      | cons fid rest ih =>
        intro acc
        rw [List.filter_cons]
        cases h : idToAction items fid with
        | none => simp [h, ih]
        | some a => simp [h, ih]
    exact key l {}
  · intro acc a h
    simp [stepAction, h, DeductVal.toInt?]
  · intro acc e h1 h2
    unfold applyRecommendation
    rw [if_neg (by
      rintro ⟨hc1, hc2⟩
      rcases h1 with h1 | h1
      · simp [h1] at hc1
      · exact h1 hc2)]
    rw [if_neg (by
      rintro ⟨hc1, -, hc3, -⟩
      rcases h2 with h2 | h2
      · simp [h2] at hc1
      · exact h2 hc3)]

theorem c4_defensive_enforcement_witness :
    (accumulateActions [ruleA] ["ghost", "A"] =
      accumulateActions [ruleA]
        (["ghost", "A"].filter (fun fid => (idToAction [ruleA] fid).isSome))) ∧
    (stepAction {} c4ActionInvalid =
      stepAction {} { c4ActionInvalid with deduct_points := none }) ∧
    ((applyRecommendation
        { forced := some "NOT_A_LEVEL", cap := some "", deduction := 0 }
        evalC4).recommendation = evalC4.recommendation) :=
  ⟨c4_defensive_enforcement.1 [ruleA] ["ghost", "A"],
   c4_defensive_enforcement.2.1 {} c4ActionInvalid rfl,
   c4_defensive_enforcement.2.2 _ evalC4 (Or.inr (by decide))
     (Or.inl (by decide))⟩

/-- C9: `collect_feedback` reports insight regeneration exactly when the
cumulative feedback count after the submission is a positive even number
(2, 4, 6, ...), and never when it is odd. -/
theorem c9_insights_on_even_counts (n : Nat) :
    collectFeedbackInsightsGenerated n = true ↔ (0 < n ∧ n % 2 = 0) := by
  unfold collectFeedbackInsightsGenerated maybeGenerateInsights
  simp only [Bool.and_eq_true, decide_eq_true_eq]
  omega

/-- C10 counterexample: on an evaluation whose `overall_score` is `-5`
(outside the documented 0-100 range, but an `int` the code accepts), a
10-point deduction floors the score at 0, *raising* it above the input
score, so "the corrected score is never greater than the input score" fails
as universally stated. -/
theorem c10_counterexample :
    evalC10.overall_score = -5 ∧
    (enforceFiltersOnEvaluation evalC10 (some rulesC10)).overall_score = 0 ∧
    ¬ ((enforceFiltersOnEvaluation evalC10 (some rulesC10)).overall_score ≤
        evalC10.overall_score) := by decide

/-- C10 (amended): for every evaluation and configuration the Policy
Enforcer modifies at most `overall_score` and `recommendation` — candidate
name, job name, strengths, concerns, interview priority, detailed notes,
timestamp, insight citation and evaluation id are returned unchanged — and
for every evaluation whose `overall_score` is non-negative (as the 0-100
documented range guarantees) the corrected score is never greater than the
input score. -/
theorem c10_frame_and_score_monotone (e : Evaluation)
    (sf : Option ScreeningFilters) :
    ((enforceFiltersOnEvaluation e sf).candidate_name = e.candidate_name ∧
     (enforceFiltersOnEvaluation e sf).job_name = e.job_name ∧
     (enforceFiltersOnEvaluation e sf).strengths = e.strengths ∧
     (enforceFiltersOnEvaluation e sf).concerns = e.concerns ∧
     (enforceFiltersOnEvaluation e sf).interview_priority =
       e.interview_priority ∧
     (enforceFiltersOnEvaluation e sf).detailed_notes = e.detailed_notes ∧
     (enforceFiltersOnEvaluation e sf).timestamp = e.timestamp ∧
     (enforceFiltersOnEvaluation e sf).ai_insights_used = e.ai_insights_used ∧
     (enforceFiltersOnEvaluation e sf).evaluation_id = e.evaluation_id) ∧
    (0 ≤ e.overall_score →
      (enforceFiltersOnEvaluation e sf).overall_score ≤ e.overall_score) := by
  cases sf with
  | none =>
    exact ⟨⟨rfl, rfl, rfl, rfl, rfl, rfl, rfl, rfl, rfl⟩, fun _ => le_refl _⟩
  | some sf =>
    rw [enforce_some_eq]
    by_cases hfil : sf.filters.isEmpty = true
    · rw [if_pos hfil]
      exact ⟨⟨rfl, rfl, rfl, rfl, rfl, rfl, rfl, rfl, rfl⟩, fun _ => le_refl _⟩
    · rw [if_neg hfil]
      by_cases happ : (parseAppliedFiltersFromNotes e.detailed_notes).isEmpty = true
      · rw [if_pos happ]
        exact ⟨⟨rfl, rfl, rfl, rfl, rfl, rfl, rfl, rfl, rfl⟩, fun _ => le_refl _⟩
      · rw [if_neg happ]
        set acc := accumulateActions sf.filters
          (parseAppliedFiltersFromNotes e.detailed_notes) with hacc
        obtain ⟨f1, f2, -, f4, f5, f6, f7, f8, f9, f10⟩ :=
          applyRecommendation_frame acc (applyScoreDeduction acc e)
        obtain ⟨g1, g2, -, g4, g5, g6, g7, g8, g9, g10⟩ :=
          applyScoreDeduction_frame acc e
        refine ⟨⟨f1.trans g1, f2.trans g2, f4.trans g4, f5.trans g5,
          f6.trans g6, f7.trans g7, f8.trans g8, f9.trans g9,
          f10.trans g10⟩, ?_⟩
        intro hscore
        rw [applyRecommendation_score, applyScoreDeduction_score]
        by_cases hpos : acc.deduction > 0
        · rw [if_pos hpos]
          omega
        · rw [if_neg hpos]

theorem c10_frame_and_score_monotone_witness :
    ((enforceFiltersOnEvaluation evalC10W (some rulesC10)).candidate_name =
       evalC10W.candidate_name ∧
     (enforceFiltersOnEvaluation evalC10W (some rulesC10)).job_name =
       evalC10W.job_name ∧
     (enforceFiltersOnEvaluation evalC10W (some rulesC10)).strengths =
       evalC10W.strengths ∧
     (enforceFiltersOnEvaluation evalC10W (some rulesC10)).concerns =
       evalC10W.concerns ∧
     (enforceFiltersOnEvaluation evalC10W (some rulesC10)).interview_priority =
       evalC10W.interview_priority ∧
     (enforceFiltersOnEvaluation evalC10W (some rulesC10)).detailed_notes =
       evalC10W.detailed_notes ∧
     (enforceFiltersOnEvaluation evalC10W (some rulesC10)).timestamp =
       evalC10W.timestamp ∧
     (enforceFiltersOnEvaluation evalC10W (some rulesC10)).ai_insights_used =
       evalC10W.ai_insights_used ∧
     (enforceFiltersOnEvaluation evalC10W (some rulesC10)).evaluation_id =
       evalC10W.evaluation_id) ∧
    (enforceFiltersOnEvaluation evalC10W (some rulesC10)).overall_score ≤
      evalC10W.overall_score :=
  ⟨(c10_frame_and_score_monotone evalC10W (some rulesC10)).1,
   (c10_frame_and_score_monotone evalC10W (some rulesC10)).2 (by decide)⟩

/-- C5: two identifier records overlap exactly when at least one of the
four categories has a non-empty intersection with both sides non-empty;
a single shared email suffices (declared names are not inputs to the
check at all), and two all-empty records never overlap. -/
theorem c5_identifier_overlap (a b : Identifiers) :
    (identifiersOverlap a b = true ↔
      ((a.emails ∩ b.emails ≠ ∅ ∧ a.emails ≠ ∅ ∧ b.emails ≠ ∅) ∨
       (a.phones ∩ b.phones ≠ ∅ ∧ a.phones ≠ ∅ ∧ b.phones ≠ ∅) ∨
       (a.linkedin ∩ b.linkedin ≠ ∅ ∧ a.linkedin ≠ ∅ ∧ b.linkedin ≠ ∅) ∨
       (a.github ∩ b.github ≠ ∅ ∧ a.github ≠ ∅ ∧ b.github ≠ ∅))) ∧
    (∀ x, x ∈ a.emails → x ∈ b.emails → identifiersOverlap a b = true) ∧
    (identifiersOverlap ⟨∅, ∅, ∅, ∅⟩ ⟨∅, ∅, ∅, ∅⟩ = false) := by
  refine ⟨?_, ?_, by decide⟩
  · unfold identifiersOverlap overlapOn
    simp only [Bool.or_eq_true, Bool.and_eq_true, decide_eq_true_eq]
    tauto
  · intro x hxa hxb
    unfold identifiersOverlap overlapOn
    simp only [Bool.or_eq_true, Bool.and_eq_true, decide_eq_true_eq]
    have h1 := Finset.ne_empty_of_mem hxa
    have h2 := Finset.ne_empty_of_mem hxb
    have h3 := Finset.ne_empty_of_mem (Finset.mem_inter.mpr ⟨hxa, hxb⟩)
    tauto

theorem c5_identifier_overlap_witness :
    identifiersOverlap idsShared1 idsShared2 = true :=
  (c5_identifier_overlap idsShared1 idsShared2).2.1 "a@x.co" (by decide)
    (by decide)

/-- C7 counterexample: records `X` (email e1) and `Y` (emails e1, e2)
both exist; exactly resubmitting `Y` with its own identifiers matches `X`
first, so the resolver creates a new `Y__DUPLICATE_CHECK` record instead of
merging into `Y` — idempotence fails as universally stated. -/
theorem c7_counterexample :
    (determineTargetDirectory "cands" "j" "Y" recY.ids [recX, recY]
      ["cands/j/X", "cands/j/Y"]).outcome = .duplicateCheck ∧
    (determineTargetDirectory "cands" "j" "Y" recY.ids [recX, recY]
      ["cands/j/X", "cands/j/Y"]).name = "Y__DUPLICATE_CHECK" ∧
    ResolveOutcome.duplicateCheck ≠ ResolveOutcome.merged := by decide

/-- C7 (amended): re-submitting a candidate whose same-named record is the
*first* record (in directory iteration order) with overlapping identifiers
— in particular when it is the only overlapping record — returns that
record's directory and canonical name unchanged, creating no
`__DUPLICATE_CHECK` and no suffixed record. -/
theorem c7_resubmission_merges (candidatesPath jobName candidateName : String)
    (ids : Identifiers) (existing : List CandidateRecord)
    (takenPaths : List String) (r : CandidateRecord)
    (hfirst : (existing.filter
        (fun r => identifiersOverlap ids r.ids)).head? = some r)
    (hname : r.name = candidateName) :
    determineTargetDirectory candidatesPath jobName candidateName ids
        existing takenPaths =
      { path := r.dir, name := r.name, outcome := .merged } := by
  unfold determineTargetDirectory
  cases hm : existing.filter (fun r => identifiersOverlap ids r.ids) with
  | nil => rw [hm] at hfirst; cases hfirst
  | cons fm rest =>
    rw [hm] at hfirst
    simp only [List.head?_cons, Option.some.injEq] at hfirst
    subst hfirst
    dsimp only
    rw [if_neg (by simp [hname])]

theorem c7_resubmission_merges_witness :
    determineTargetDirectory "cands" "j" "Y" recY.ids [recY] ["cands/j/Y"] =
      { path := "cands/j/Y", name := "Y", outcome := .merged } :=
  c7_resubmission_merges "cands" "j" "Y" recY.ids [recY] ["cands/j/Y"] recY
    (by decide) rfl

/-- C8: when the deduplicator classifies two evaluations as the same
candidate, the one whose raw name splits into more `_`-parts is kept
regardless of timestamps; only on equal part counts does the strictly newer
timestamp win (otherwise the first-seen entry is kept).  In particular
`"john_doe"` always survives against `"doe"`, whatever the timestamps and
whichever is processed first. -/
theorem c8_dedup_specificity_over_recency :
    (∀ a b : Evaluation,
      areSameCandidate b.candidate_name a.candidate_name = true →
      (tokenCount b.candidate_name > tokenCount a.candidate_name →
        deduplicateEvaluations [a, b] = [b]) ∧
      (tokenCount a.candidate_name > tokenCount b.candidate_name →
        deduplicateEvaluations [a, b] = [a]) ∧
      (tokenCount a.candidate_name = tokenCount b.candidate_name →
        deduplicateEvaluations [a, b] =
          [if b.timestamp > a.timestamp then b else a])) ∧
    (∀ t1 t2 : Nat,
      deduplicateEvaluations [mkNamedEval "john_doe" t1, mkNamedEval "doe" t2]
        = [mkNamedEval "john_doe" t1] ∧
      deduplicateEvaluations [mkNamedEval "doe" t2, mkNamedEval "john_doe" t1]
        = [mkNamedEval "john_doe" t1]) := by
  have main : ∀ a b : Evaluation,
      areSameCandidate b.candidate_name a.candidate_name = true →
      (tokenCount b.candidate_name > tokenCount a.candidate_name →
        deduplicateEvaluations [a, b] = [b]) ∧
      (tokenCount a.candidate_name > tokenCount b.candidate_name →
        deduplicateEvaluations [a, b] = [a]) ∧
      (tokenCount a.candidate_name = tokenCount b.candidate_name →
        deduplicateEvaluations [a, b] =
          [if b.timestamp > a.timestamp then b else a]) := by
    intro a b hsame
    have hstep : deduplicateEvaluations [a, b] = [resolveDuplicate a b] := by
      unfold deduplicateEvaluations
      simp [dedupInsert, hsame]
    refine ⟨?_, ?_, ?_⟩
    · intro h
      rw [hstep]
      unfold resolveDuplicate
      rw [if_pos h]
    · intro h
      rw [hstep]
      unfold resolveDuplicate
      rw [if_neg (by omega), if_pos h]
    · intro h
      rw [hstep]
      unfold resolveDuplicate
      rw [if_neg (by omega), if_neg (by omega)]
  refine ⟨main, ?_⟩
  intro t1 t2
  exact ⟨(main (mkNamedEval "john_doe" t1) (mkNamedEval "doe" t2)
      (by show areSameCandidate "doe" "john_doe" = true; decide)).2.1
      (by show tokenCount "john_doe" > tokenCount "doe"; decide),
    (main (mkNamedEval "doe" t2) (mkNamedEval "john_doe" t1)
      (by show areSameCandidate "john_doe" "doe" = true; decide)).1
      (by show tokenCount "john_doe" > tokenCount "doe"; decide)⟩

theorem c8_dedup_specificity_over_recency_witness :
    deduplicateEvaluations [mkNamedEval "john_doe" 1, mkNamedEval "doe" 2] =
      [mkNamedEval "john_doe" 1] :=
  (c8_dedup_specificity_over_recency.2 1 2).1

theorem filterMap_ignores_short (f : List Char → String)
    (l : List (List Char)) :
    l.filterMap (fun h => if h.isEmpty = false ∧ h.length > 1
        then some (f h) else none) =
      (l.filter (fun h => decide (h.length > 1))).filterMap
        (fun h => if h.isEmpty = false ∧ h.length > 1
          then some (f h) else none) := by
  induction l with
  | nil => rfl
  | cons h rest ih =>
    rw [List.filter_cons, List.filterMap_cons]
    by_cases hl : h.length > 1
    · have hne : h.isEmpty = false := by
        cases h with
        | nil => simp at hl
        | cons c t => rfl
      rw [if_pos ⟨hne, hl⟩]
      rw [if_pos (by simpa using hl)]
      rw [List.filterMap_cons, if_pos ⟨hne, hl⟩, ih]
    · rw [if_neg (by rintro ⟨-, h2⟩; exact hl h2)]
      rw [if_neg (by simpa using hl), ih]

theorem linkedin_component_eq (t : String) :
    (extractIdentifiersFromText t).linkedin =
      (((linkedinHandleMatches t.data).filter
          (fun h => decide (h.length > 1))).filterMap
        (fun h => if h.isEmpty = false ∧ h.length > 1
          then some (normalizeProfileUrl "https://linkedin.com/in"
            (String.mk h)) else none)).toFinset := by
  by_cases ht : t = ""
  · subst ht; decide
  · unfold extractIdentifiersFromText
    rw [if_neg (by simp [ht])]
    exact congrArg List.toFinset (filterMap_ignores_short _ _)

theorem github_component_eq (t : String) :
    (extractIdentifiersFromText t).github =
      (((githubHandleMatches t.data).filter
          (fun h => decide (h.length > 1))).filterMap
        (fun h => if h.isEmpty = false ∧ h.length > 1
          then some (normalizeProfileUrl "https://github.com"
            (String.mk h)) else none)).toFinset := by
  by_cases ht : t = ""
  · subst ht; decide
  · unfold extractIdentifiersFromText
    rw [if_neg (by simp [ht])]
    exact congrArg List.toFinset (filterMap_ignores_short _ _)

/-- C6: identifier extraction is a total function (in this embedding every
Python failure mode is an explicit branch, so it never throws): the empty
text yields four empty sets; any text on which the four patterns find no
match yields four empty sets; and the LinkedIn/GitHub components depend
only on the captured handles of length greater than one — a match whose
handle has length 1 (or less) contributes nothing. -/
theorem c6_extraction_empty_and_short_handles :
    (extractIdentifiersFromText "" = ⟨∅, ∅, ∅, ∅⟩) ∧
    (∀ text : String,
      emailMatches text.data = [] → phoneMatches text.data = [] →
      linkedinHandleMatches text.data = [] →
      githubHandleMatches text.data = [] →
      extractIdentifiersFromText text = ⟨∅, ∅, ∅, ∅⟩) ∧
    (∀ t1 t2 : String,
      (linkedinHandleMatches t1.data).filter (fun h => decide (h.length > 1)) =
        (linkedinHandleMatches t2.data).filter
          (fun h => decide (h.length > 1)) →
      (extractIdentifiersFromText t1).linkedin =
        (extractIdentifiersFromText t2).linkedin) ∧
    (∀ t1 t2 : String,
      (githubHandleMatches t1.data).filter (fun h => decide (h.length > 1)) =
        (githubHandleMatches t2.data).filter
          (fun h => decide (h.length > 1)) →
      (extractIdentifiersFromText t1).github =
        (extractIdentifiersFromText t2).github) := by
  refine ⟨rfl, ?_, ?_, ?_⟩
  · intro text h1 h2 h3 h4
    by_cases ht : text = ""
    · subst ht; rfl
    · unfold extractIdentifiersFromText
      rw [if_neg (by simp [ht])]
      rw [h1, h2, h3, h4]
      rfl
  · intro t1 t2 h
    rw [linkedin_component_eq t1, linkedin_component_eq t2, h]
  · intro t1 t2 h
    rw [github_component_eq t1, github_component_eq t2, h]

theorem c6_extraction_empty_and_short_handles_witness :
    (extractIdentifiersFromText " " = ⟨∅, ∅, ∅, ∅⟩) ∧
    ((extractIdentifiersFromText "github.com/a").github =
      (extractIdentifiersFromText " ").github) ∧
    ((extractIdentifiersFromText "linkedin.com/in/a").linkedin =
      (extractIdentifiersFromText " ").linkedin) :=
  ⟨c6_extraction_empty_and_short_handles.2.1 " " (by decide) (by decide)
      (by decide) (by decide),
   c6_extraction_empty_and_short_handles.2.2.2 "github.com/a" " " (by decide),
   c6_extraction_empty_and_short_handles.2.2.1 "linkedin.com/in/a" " "
     (by decide)⟩
